import Mathlib

/-
Verification development for the YWAR tracker repository.

The development embeds the configuration merging engine
(src/config/config.py), the configuration loading step, the container
depth and styling model (src/ui/containers/base.py) and the theme color
resolution (src/ui/theme.py) as executable Lean definitions, and proves
the stated properties of the specification about them.
-/

/-
Configuration trees. A node of a loaded YAML configuration is either a
scalar leaf, which is a string, a number or a boolean, or a mapping from
string keys to child nodes. Python dictionaries preserve insertion order
and never hold a duplicate key, so a mapping is embedded as an ordered
sequence of key and value pairs, and the no-duplicate invariant is the
separate predicate wfDict below.
-/
mutual
inductive ConfigVal : Type where
  | str : String → ConfigVal
  | int : Int → ConfigVal
  | bool : Bool → ConfigVal
  | dict : ConfigDict → ConfigVal
inductive ConfigDict : Type where
  | nil : ConfigDict
  | cons : String → ConfigVal → ConfigDict → ConfigDict
end

/-- Lookup of a key in a mapping, returning the first binding, as a
Python dictionary subscript does on the dictionaries embedded here. -/
def dLookup (k : String) : ConfigDict → Option ConfigVal
  | ConfigDict.nil => none
  | ConfigDict.cons j v rest => if j = k then some v else dLookup k rest

/-- Update of a key in a mapping, replacing the value in place when the
key is bound and appending a new binding at the end otherwise, as a
Python dictionary item assignment does. -/
def dSet (k : String) (v : ConfigVal) : ConfigDict → ConfigDict
  | ConfigDict.nil => ConfigDict.cons k v ConfigDict.nil
  | ConfigDict.cons j w rest =>
    if j = k then ConfigDict.cons k v rest else ConfigDict.cons j w (dSet k v rest)

/-- Membership of a key in a mapping. -/
def hasKey (k : String) (d : ConfigDict) : Bool :=
  (dLookup k d).isSome

/-- Holds when the top level keys of a mapping are pairwise distinct. -/
def nodupKeys : ConfigDict → Bool
  | ConfigDict.nil => true
  | ConfigDict.cons k _ rest => (dLookup k rest).isNone && nodupKeys rest

/-
Well-formedness of an embedded configuration tree: at every level no
mapping binds the same key twice. Every tree produced by the YAML
loader satisfies this, since Python dictionaries cannot hold duplicate
keys.
-/
mutual
def wfVal : ConfigVal → Bool
  | ConfigVal.str _ => true
  | ConfigVal.int _ => true
  | ConfigVal.bool _ => true
  | ConfigVal.dict d => wfDict d
def wfDict : ConfigDict → Bool
  | ConfigDict.nil => true
  | ConfigDict.cons k v rest => (dLookup k rest).isNone && wfVal v && wfDict rest
end

/-- Holds of mapping values only. -/
def isDict : ConfigVal → Bool
  | ConfigVal.dict _ => true
  | _ => false

/-
Embedding of the function deep merge dicts of src/config/config.py.
The source starts from a copy of the base dictionary and walks the
items of the override dictionary in order; when the key is bound in the
accumulated result and both the bound value and the override value are
dictionaries the two are merged recursively, and otherwise the override
value replaces the bound value. mergeEntry performs the body of the
loop for a single override item and deep_merge_dicts folds it over the
override items.
-/
mutual
def mergeEntry (base : ConfigDict) (k : String) : ConfigVal → ConfigDict
  | ConfigVal.dict o =>
    match dLookup k base with
    | some (ConfigVal.dict m) => dSet k (ConfigVal.dict (deep_merge_dicts m o)) base
    | _ => dSet k (ConfigVal.dict o) base
  | v => dSet k v base
def deep_merge_dicts (base : ConfigDict) : ConfigDict → ConfigDict
  | ConfigDict.nil => base
  | ConfigDict.cons k v rest => deep_merge_dicts (mergeEntry base k v) rest
end

/-- Value that the merge of two mappings associates to a key, as a
function of the two values the inputs associate to it. -/
def mergedAt : Option ConfigVal → Option ConfigVal → Option ConfigVal
  | bv, none => bv
  | some (ConfigVal.dict m), some (ConfigVal.dict w) =>
    some (ConfigVal.dict (deep_merge_dicts m w))
  | _, some v => some v

/-- Induction principle walking the bindings of a mapping. -/
theorem configDict_ind (motive : ConfigDict → Prop) (hnil : motive ConfigDict.nil)
    (hcons : ∀ k v rest, motive rest → motive (ConfigDict.cons k v rest)) :
    ∀ d, motive d
  | ConfigDict.nil => hnil
  | ConfigDict.cons k v rest => hcons k v rest (configDict_ind motive hnil hcons rest)

theorem dLookup_dSet_self (k : String) (v : ConfigVal) :
    ∀ d, dLookup k (dSet k v d) = some v := by
  intro d
  induction d using configDict_ind with
  | hnil => simp [dSet, dLookup]
  | hcons j w rest ih =>
    by_cases hj : j = k
    · subst hj
      simp [dSet, dLookup]
    · simp [dSet, dLookup, hj, ih]

theorem dLookup_dSet_ne (k j : String) (v : ConfigVal) (h : k ≠ j) :
    ∀ d, dLookup j (dSet k v d) = dLookup j d := by
  intro d
  induction d using configDict_ind with
  | hnil => simp [dSet, dLookup, h]
  | hcons i w rest ih =>
    by_cases hi : i = k
    · subst hi
      simp [dSet, dLookup, h, ih]
    · simp [dSet, dLookup, hi, ih]

theorem dSet_of_dLookup (k : String) (v : ConfigVal) :
    ∀ d, dLookup k d = some v → dSet k v d = d := by
  intro d
  induction d using configDict_ind with
  | hnil => intro h; simp [dLookup] at h
  | hcons j w rest ih =>
    intro h
    by_cases hj : j = k
    · subst hj
      simp [dLookup] at h
      simp [dSet, h]
    · simp [dLookup, hj] at h
      simp [dSet, hj, ih h]

theorem mergedAt_none (x : Option ConfigVal) : mergedAt x none = x := by
  rcases x with _ | v
  · rfl
  · rcases v <;> rfl

theorem dLookup_mergeEntry_self (b : ConfigDict) (k : String) (v : ConfigVal) :
    dLookup k (mergeEntry b k v) = mergedAt (dLookup k b) (some v) := by
  rcases v with s | i | bb | o
  · rcases hb : dLookup k b with _ | w
    · simp [mergeEntry, dLookup_dSet_self, mergedAt]
    · rcases w <;> simp [mergeEntry, dLookup_dSet_self, mergedAt]
  · rcases hb : dLookup k b with _ | w
    · simp [mergeEntry, dLookup_dSet_self, mergedAt]
    · rcases w <;> simp [mergeEntry, dLookup_dSet_self, mergedAt]
  · rcases hb : dLookup k b with _ | w
    · simp [mergeEntry, dLookup_dSet_self, mergedAt]
    · rcases w <;> simp [mergeEntry, dLookup_dSet_self, mergedAt]
  · rcases hb : dLookup k b with _ | w
    · simp [mergeEntry, hb, dLookup_dSet_self, mergedAt]
    · rcases w <;> simp [mergeEntry, hb, dLookup_dSet_self, mergedAt]

theorem dLookup_mergeEntry_ne (b : ConfigDict) (k j : String) (v : ConfigVal)
    (h : k ≠ j) : dLookup j (mergeEntry b k v) = dLookup j b := by
  rcases v with s | i | bb | o
  · simp [mergeEntry, dLookup_dSet_ne k j _ h]
  · simp [mergeEntry, dLookup_dSet_ne k j _ h]
  · simp [mergeEntry, dLookup_dSet_ne k j _ h]
  · rcases hb : dLookup k b with _ | w
    · simp [mergeEntry, hb, dLookup_dSet_ne k j _ h]
    · rcases w <;> simp [mergeEntry, hb, dLookup_dSet_ne k j _ h]

/-- Pointwise characterization of the merge: the value the merged
mapping associates to any key is determined by the values the base and
the override associate to it. -/
theorem dLookup_deep_merge :
    (o : ConfigDict) → ∀ b j, nodupKeys o = true →
      dLookup j (deep_merge_dicts b o) = mergedAt (dLookup j b) (dLookup j o)
  | ConfigDict.nil => by
    intro b j _
    simp [deep_merge_dicts, dLookup, mergedAt_none]
  | ConfigDict.cons k v rest => by
    intro b j h
    simp only [nodupKeys, Bool.and_eq_true, Option.isNone_iff_eq_none] at h
    obtain ⟨h1, h2⟩ := h
    have step : deep_merge_dicts b (ConfigDict.cons k v rest) =
        deep_merge_dicts (mergeEntry b k v) rest := rfl
    rw [step, dLookup_deep_merge rest (mergeEntry b k v) j h2]
    by_cases hk : k = j
    · subst hk
      rw [dLookup_mergeEntry_self, h1, mergedAt_none]
      simp [dLookup]
    · rw [dLookup_mergeEntry_ne b k j v hk]
      simp [dLookup, hk]

/-- Merging a mapping into a super map of itself changes nothing: every
override item rewrites a binding to the value it already has. -/
theorem merge_self_fixed :
    (o : ConfigDict) → ∀ r, wfDict o = true →
      (∀ k v, dLookup k o = some v → dLookup k r = some v) →
      deep_merge_dicts r o = r
  | ConfigDict.nil => fun _ _ _ => rfl
  | ConfigDict.cons k v rest => fun r hwf hsub => by
    simp only [wfDict, Bool.and_eq_true, Option.isNone_iff_eq_none] at hwf
    obtain ⟨⟨h1, h2⟩, h3⟩ := hwf
    have hv : dLookup k r = some v := hsub k v (by simp [dLookup])
    have hEntry : mergeEntry r k v = r := by
      rcases v with s | i | bb | w
      · exact dSet_of_dLookup k _ r hv
      · exact dSet_of_dLookup k _ r hv
      · exact dSet_of_dLookup k _ r hv
      · have hrec : deep_merge_dicts w w = w :=
          merge_self_fixed w w (by simpa [wfVal] using h2) (fun _ _ hl => hl)
        simp only [mergeEntry, hv, hrec]
        exact dSet_of_dLookup k _ r hv
    have step : deep_merge_dicts r (ConfigDict.cons k v rest) =
        deep_merge_dicts (mergeEntry r k v) rest := rfl
    rw [step, hEntry]
    refine merge_self_fixed rest r h3 (fun k2 v2 hl => ?_)
    by_cases hkk : k = k2
    · subst hkk
      rw [h1] at hl
      exact absurd hl (by simp)
    · exact hsub k2 v2 (by simpa [dLookup, hkk] using hl)
termination_by o => sizeOf o
decreasing_by
all_goals simp_wf
all_goals omega

theorem mergedAt_isSome (x y : Option ConfigVal) :
    (mergedAt x y).isSome = (x.isSome || y.isSome) := by
  rcases x with _ | xv
  · rcases y with _ | yv
    · rfl
    · rcases yv <;> rfl
  · rcases y with _ | yv
    · rcases xv <;> rfl
    · rcases xv <;> rcases yv <;> rfl

/-- Claim C1: the merge of two configuration mappings binds the union of
both key sets; a key bound only in the base keeps its base value, a key
bound only in the override receives its override value, a key bound to
mappings on both sides is bound to their recursive merge, and a key
bound on both sides in any other shape is bound to the override value
outright, so no base key that the override does not mention is dropped. -/
theorem deep_merge_dicts_spec (b o : ConfigDict) (ho : nodupKeys o = true) :
    (∀ k, hasKey k (deep_merge_dicts b o) = (hasKey k b || hasKey k o)) ∧
    (∀ k, hasKey k o = false → dLookup k (deep_merge_dicts b o) = dLookup k b) ∧
    (∀ k v, hasKey k b = false → dLookup k o = some v →
      dLookup k (deep_merge_dicts b o) = some v) ∧
    (∀ k m w, dLookup k b = some (ConfigVal.dict m) →
      dLookup k o = some (ConfigVal.dict w) →
      dLookup k (deep_merge_dicts b o) =
        some (ConfigVal.dict (deep_merge_dicts m w))) ∧
    (∀ k vb vo, dLookup k b = some vb → dLookup k o = some vo →
      (isDict vb && isDict vo) = false →
      dLookup k (deep_merge_dicts b o) = some vo) := by
  refine ⟨?_, ?_, ?_, ?_, ?_⟩
  · intro k
    rw [hasKey, dLookup_deep_merge o b k ho, mergedAt_isSome]
    rfl
  · intro k hk
    rw [dLookup_deep_merge o b k ho]
    rw [hasKey] at hk
    have hk2 : dLookup k o = none := by
      cases hx : dLookup k o
      · rfl
      · rw [hx] at hk
        simp at hk
    rw [hk2, mergedAt_none]
  · intro k v hb hv
    rw [dLookup_deep_merge o b k ho]
    rw [hasKey] at hb
    have hb2 : dLookup k b = none := by
      cases hx : dLookup k b
      · rfl
      · rw [hx] at hb
        simp at hb
    rw [hb2, hv]
    rcases v <;> rfl
  · intro k m w hb hv
    rw [dLookup_deep_merge o b k ho, hb, hv]
    rfl
  · intro k vb vo hb hv hd
    rw [dLookup_deep_merge o b k ho, hb, hv]
    rcases vb <;> rcases vo <;> first
      | rfl
      | (exfalso; simp [isDict] at hd)

/-- Concrete base and override mappings exercising claim C1. -/
def demoBase : ConfigDict :=
  ConfigDict.cons "a"
    (ConfigVal.dict (ConfigDict.cons "x" (ConfigVal.int 1) ConfigDict.nil))
    (ConfigDict.cons "keep" (ConfigVal.int 7) ConfigDict.nil)

/-- Concrete override mapping exercising claim C1. -/
def demoOver : ConfigDict :=
  ConfigDict.cons "a" (ConfigVal.int 5)
    (ConfigDict.cons "new" (ConfigVal.bool true) ConfigDict.nil)

theorem deep_merge_dicts_spec_witness :
    nodupKeys demoOver = true ∧
    ((∀ k, hasKey k (deep_merge_dicts demoBase demoOver) =
        (hasKey k demoBase || hasKey k demoOver)) ∧
    (∀ k, hasKey k demoOver = false →
      dLookup k (deep_merge_dicts demoBase demoOver) = dLookup k demoBase) ∧
    (∀ k v, hasKey k demoBase = false → dLookup k demoOver = some v →
      dLookup k (deep_merge_dicts demoBase demoOver) = some v) ∧
    (∀ k m w, dLookup k demoBase = some (ConfigVal.dict m) →
      dLookup k demoOver = some (ConfigVal.dict w) →
      dLookup k (deep_merge_dicts demoBase demoOver) =
        some (ConfigVal.dict (deep_merge_dicts m w))) ∧
    (∀ k vb vo, dLookup k demoBase = some vb → dLookup k demoOver = some vo →
      (isDict vb && isDict vo) = false →
      dLookup k (deep_merge_dicts demoBase demoOver) = some vo)) :=
  ⟨rfl, deep_merge_dicts_spec demoBase demoOver rfl⟩

/-- Claim C8: merging a well formed configuration mapping with itself
returns it unchanged. -/
theorem merge_self_identity (b : ConfigDict) (h : wfDict b = true) :
    deep_merge_dicts b b = b :=
  merge_self_fixed b b h (fun _ _ hv => hv)

/-- Concrete nested mapping exercising claim C8. -/
def demoSelf : ConfigDict :=
  ConfigDict.cons "a"
    (ConfigVal.dict (ConfigDict.cons "x" (ConfigVal.int 1)
      (ConfigDict.cons "y" (ConfigVal.str "two") ConfigDict.nil)))
    (ConfigDict.cons "b" (ConfigVal.bool true) ConfigDict.nil)

theorem merge_self_identity_witness :
    wfDict demoSelf = true ∧ deep_merge_dicts demoSelf demoSelf = demoSelf :=
  ⟨rfl, merge_self_identity demoSelf rfl⟩

/-
State of one configuration source as load config of src/config/config.py
observes it. Reading the file and parsing the YAML text are performed by
the hosting platform and the external YAML library, so their outcome is
abstracted into three cases: the source file does not exist, the source
file exists but raises a parse error, or the source parses to a mapping.
A user source that exists and parses to an empty or null document is the
parsed empty mapping, matching the or-else-empty step of the source.
-/
inductive SourceState : Type where
  | absent : SourceState
  | malformed : SourceState
  | parsed : ConfigDict → SourceState

/-
Errors with which loading can fail, named by the taxonomy of the
specification: missingConfiguration classifies the exception propagated
when the required default source is absent or unparsable, and
malformedOverride classifies the parse exception propagated when the
optional user source exists but does not parse.
-/
inductive LoadError : Type where
  | missingConfiguration : LoadError
  | malformedOverride : LoadError
deriving DecidableEq

/-- Embedding of load config of src/config/config.py. The default source
is opened and parsed first, so any failure there propagates before the
user source is consulted; a user source that exists is then parsed, with
a parse failure propagating, and an absent user source is replaced by an
empty mapping; finally the two mappings are merged. -/
def load_config : SourceState → SourceState → Except LoadError ConfigDict
  | SourceState.absent, _ => Except.error LoadError.missingConfiguration
  | SourceState.malformed, _ => Except.error LoadError.missingConfiguration
  | SourceState.parsed b, SourceState.absent =>
    Except.ok (deep_merge_dicts b ConfigDict.nil)
  | SourceState.parsed _, SourceState.malformed =>
    Except.error LoadError.malformedOverride
  | SourceState.parsed b, SourceState.parsed o =>
    Except.ok (deep_merge_dicts b o)

/-- Claim C4: a user source that is present but does not parse makes
loading fail for every state of the default source, with the propagated
parse error surfacing whenever the default source itself loaded, so a
configuration tree built from the base alone is never returned. -/
theorem malformed_override_propagates :
    (∀ b, load_config (SourceState.parsed b) SourceState.malformed =
      Except.error LoadError.malformedOverride) ∧
    (∀ s t, load_config s SourceState.malformed ≠ Except.ok t) := by
  constructor
  · intro b
    rfl
  · intro s t
    cases s <;> simp [load_config]

/-- Claim C5: when the default source is absent or does not parse,
loading fails with the missing configuration error whatever the state of
the user source, and no configuration tree is produced. -/
theorem missing_base_fails :
    ∀ o, load_config SourceState.absent o =
        Except.error LoadError.missingConfiguration ∧
      load_config SourceState.malformed o =
        Except.error LoadError.missingConfiguration := by
  intro o
  constructor <;> rfl

/-- Claim C7: an absent user source is treated as the empty mapping, so
loading returns exactly the parsed default mapping, and merging any
mapping with the empty override mapping changes nothing. -/
theorem empty_override_noop :
    (∀ b, load_config (SourceState.parsed b) SourceState.absent =
      Except.ok b) ∧
    (∀ b, deep_merge_dicts b ConfigDict.nil = b) := by
  constructor
  · intro b
    rfl
  · intro b
    rfl

/-- Embedding of the ContainerType enumeration of
src/ui/containers/base.py, whose members carry the values 0 to 3. -/
inductive ContainerType : Type where
  | BASE : ContainerType
  | SECTION : ContainerType
  | LOCATION : ContainerType
  | TASK : ContainerType
deriving DecidableEq

/-- Error with which container construction can fail, named by the
taxonomy of the specification. -/
inductive ContainerError : Type where
  | invalidContainerKind : ContainerError
deriving DecidableEq

/-- Modelled from the spec: the recognition of a raw kind value at
container construction. The source file of the repository declares the
enumeration and the constructor but the validation step itself is not
present in it; the specification states that only the Section, Location
and Task kinds are recognized when constructing a container, the BASE
member being an internal sentinel that is never instantiated directly.
Raw values follow the numbering of the ContainerType enumeration. -/
def recognizeKind (code : Nat) : Option ContainerType :=
  if code = 1 then some ContainerType.SECTION
  else if code = 2 then some ContainerType.LOCATION
  else if code = 3 then some ContainerType.TASK
  else none

/-
A constructed container and its chain of ancestors. A container records
its kind, a link to its parent container when it has one, its computed
relative depth and its resolved style token. The parent link plays the
role of the parent container attribute of the source, which is the
parent widget when that widget is itself a container and is empty
otherwise.
-/
mutual
inductive Container : Type where
  | mk : ContainerType → ParentLink → Nat → String → String → Container
inductive ParentLink : Type where
  | noParent : ParentLink
  | parent : Container → ParentLink
end

def Container.kind : Container → ContainerType
  | Container.mk k _ _ _ _ => k

def Container.parentLink : Container → ParentLink
  | Container.mk _ p _ _ _ => p

def Container.depth : Container → Nat
  | Container.mk _ _ d _ _ => d

def Container.styleToken : Container → String
  | Container.mk _ _ _ s _ => s

def Container.title : Container → String
  | Container.mk _ _ _ _ t => t

/-
Modelled from the spec: the method compute relative depth called by the
constructor in src/ui/containers/base.py is not present in the source
file. Following the specification it walks the parent container chain
upward, counting the ancestors whose kind equals the kind of the new
container, and stops at the root.
-/
mutual
def computeRelativeDepth (kind : ContainerType) : ParentLink → Nat
  | ParentLink.noParent => 0
  | ParentLink.parent c => countFrom kind c
def countFrom (kind : ContainerType) : Container → Nat
  | Container.mk k p _ _ _ => (if k = kind then 1 else 0) + computeRelativeDepth kind p
end

/-
The ancestors reached from a parent link, nearest first.
-/
mutual
def ancestorChain : ParentLink → List Container
  | ParentLink.noParent => []
  | ParentLink.parent c => chainFrom c
def chainFrom : Container → List Container
  | Container.mk k p d s t => Container.mk k p d s t :: ancestorChain p
end

/-- Lookup of a depth in a per kind style table. -/
def depthLookup (d : Nat) : List (Nat × String) → Option String
  | [] => none
  | (j, s) :: rest => if j = d then some s else depthLookup d rest

/-- Modelled from the spec: the method resolve style tokens called by
the constructor in src/ui/containers/base.py is not present in the
source file. Following the specification it looks the relative depth up
in the depth to style table of the kind and falls back to the base style
descriptor of the kind when the table has no entry for that depth, so it
always produces a style. -/
def resolveStyleToken (table : List (Nat × String)) (baseStyle : String)
    (depth : Nat) : String :=
  match depthLookup depth table with
  | some s => s
  | none => baseStyle

/-- Modelled from the spec: construction of a container, combining the
initializer visible in src/ui/containers/base.py with the kind
validation the specification requires. The style tables and base style
descriptors of the kinds are passed as parameters since the subclasses
defining them are not present in the source file. An unrecognized raw
kind value is rejected; otherwise the relative depth is computed from
the parent chain and the style token is resolved from kind and depth. -/
def mkYWARContainer (styles : ContainerType → List (Nat × String))
    (bases : ContainerType → String) (code : Nat) (p : ParentLink)
    (title : String) : Except ContainerError Container :=
  match recognizeKind code with
  | none => Except.error ContainerError.invalidContainerKind
  | some k =>
    let d := computeRelativeDepth k p
    Except.ok (Container.mk k p d (resolveStyleToken (styles k) (bases k) d) title)

/-- Walking the parent chain counts exactly the same kind ancestors. -/
theorem computeRelativeDepth_eq_countP (kind : ContainerType) :
    (p : ParentLink) → computeRelativeDepth kind p =
      (ancestorChain p).countP (fun a => decide (a.kind = kind))
  | ParentLink.noParent => by
    simp [computeRelativeDepth, ancestorChain]
  | ParentLink.parent (Container.mk k q d s t) => by
    have ih := computeRelativeDepth_eq_countP kind q
    simp only [computeRelativeDepth, countFrom, ancestorChain, chainFrom,
      List.countP_cons, ih, Container.kind]
    rcases Decidable.em (k = kind) with h | h
    all_goals simp [h]
    all_goals omega
termination_by p => sizeOf p
decreasing_by
all_goals simp_wf
all_goals omega

/-- Claim C2: a successfully constructed container has as its relative
depth the number of ancestors along the parent chain whose kind equals
its own kind, and in particular depth zero when no ancestor shares its
kind. -/
theorem relative_depth_spec (styles : ContainerType → List (Nat × String))
    (bases : ContainerType → String) (code : Nat) (p : ParentLink)
    (title : String) (c : Container)
    (h : mkYWARContainer styles bases code p title = Except.ok c) :
    c.depth = (ancestorChain p).countP (fun a => decide (a.kind = c.kind)) ∧
    ((∀ a, a ∈ ancestorChain p → a.kind ≠ c.kind) → c.depth = 0) := by
  revert h
  unfold mkYWARContainer
  cases hrk : recognizeKind code with
  | none => intro h; exact absurd h (by simp)
  | some k =>
    intro h
    simp only [Except.ok.injEq] at h
    subst h
    constructor
    · simpa [Container.kind, Container.depth] using
        computeRelativeDepth_eq_countP k p
    · intro hall
      simp only [Container.depth, Container.kind] at *
      rw [computeRelativeDepth_eq_countP k p]
      rw [List.countP_eq_zero]
      intro a ha
      simpa using hall a ha

/-- Style registry with no configured depth entries, for the concrete
container examples. -/
def demoStyles : ContainerType → List (Nat × String) := fun _ => []

/-- Base style descriptors for the concrete container examples. -/
def demoBases : ContainerType → String := fun _ => "base"

/-- Concrete section container at the root of the example hierarchy. -/
def demoSection : Container :=
  Container.mk ContainerType.SECTION ParentLink.noParent 0 "base" "sec"

/-- Concrete outer task container nested just under the section. -/
def demoTaskOuter : Container :=
  Container.mk ContainerType.TASK (ParentLink.parent demoSection) 0 "base" "outer"

/-- Concrete inner task container nested under the outer task. -/
def demoTaskInner : Container :=
  Container.mk ContainerType.TASK (ParentLink.parent demoTaskOuter) 1 "base" "inner"

theorem relative_depth_spec_witness :
    mkYWARContainer demoStyles demoBases 3 (ParentLink.parent demoTaskOuter)
      "inner" = Except.ok demoTaskInner ∧
    (demoTaskInner.depth =
      (ancestorChain (ParentLink.parent demoTaskOuter)).countP
        (fun a => decide (a.kind = demoTaskInner.kind)) ∧
     ((∀ a, a ∈ ancestorChain (ParentLink.parent demoTaskOuter) →
        a.kind ≠ demoTaskInner.kind) → demoTaskInner.depth = 0)) ∧
    demoTaskInner.depth = 1 ∧ demoTaskOuter.depth = 0 ∧ demoSection.depth = 0 :=
  ⟨rfl,
   relative_depth_spec demoStyles demoBases 3 (ParentLink.parent demoTaskOuter)
     "inner" demoTaskInner rfl,
   rfl, rfl, rfl⟩

/-- Claim C3: the style token of a successfully constructed container is
the entry of its kind style table at its relative depth when the table
has one, and the base style descriptor of its kind otherwise, so style
resolution always produces a style. -/
theorem style_resolution_spec (styles : ContainerType → List (Nat × String))
    (bases : ContainerType → String) (code : Nat) (p : ParentLink)
    (title : String) (c : Container)
    (h : mkYWARContainer styles bases code p title = Except.ok c) :
    (∀ s, depthLookup c.depth (styles c.kind) = some s → c.styleToken = s) ∧
    (depthLookup c.depth (styles c.kind) = none →
      c.styleToken = bases c.kind) := by
  revert h
  unfold mkYWARContainer
  cases hrk : recognizeKind code with
  | none => intro h; exact absurd h (by simp)
  | some k =>
    intro h
    simp only [Except.ok.injEq] at h
    subst h
    simp only [Container.kind, Container.depth, Container.styleToken]
    constructor
    · intro s hs
      simp [resolveStyleToken, hs]
    · intro hs
      simp [resolveStyleToken, hs]

/-- Style registry with entries for depths zero and one only, for the
deep task example. -/
def demoStyles2 : ContainerType → List (Nat × String) :=
  fun _ => [(0, "base"), (1, "deep")]

/-- Base style descriptors for the deep task example. -/
def demoBases2 : ContainerType → String := fun _ => "taskbase"

/-- Concrete task container at relative depth zero. -/
def demoTask0 : Container :=
  Container.mk ContainerType.TASK ParentLink.noParent 0 "base" "t0"

/-- Concrete task container at relative depth one. -/
def demoTask1 : Container :=
  Container.mk ContainerType.TASK (ParentLink.parent demoTask0) 1 "deep" "t1"

/-- Concrete task container at relative depth two, beyond the table. -/
def demoTask2 : Container :=
  Container.mk ContainerType.TASK (ParentLink.parent demoTask1) 2 "taskbase" "t2"

theorem style_resolution_spec_witness :
    mkYWARContainer demoStyles2 demoBases2 3 (ParentLink.parent demoTask1)
      "t2" = Except.ok demoTask2 ∧
    depthLookup demoTask2.depth (demoStyles2 demoTask2.kind) = none ∧
    demoTask2.styleToken = demoBases2 demoTask2.kind :=
  ⟨rfl, rfl,
   (style_resolution_spec demoStyles2 demoBases2 3 (ParentLink.parent demoTask1)
     "t2" demoTask2 rfl).2 rfl⟩

/-- Claim C6: constructing a container from a raw kind value that is not
one of the recognized Section, Location and Task kinds fails with the
invalid container kind error and produces no container. -/
theorem invalid_kind_rejected (styles : ContainerType → List (Nat × String))
    (bases : ContainerType → String) (code : Nat) (p : ParentLink)
    (title : String) (h1 : code ≠ 1) (h2 : code ≠ 2) (h3 : code ≠ 3) :
    mkYWARContainer styles bases code p title =
      Except.error ContainerError.invalidContainerKind := by
  simp [mkYWARContainer, recognizeKind, h1, h2, h3]

theorem invalid_kind_rejected_witness :
    (7 ≠ 1 ∧ 7 ≠ 2 ∧ 7 ≠ 3) ∧
    mkYWARContainer demoStyles demoBases 7 ParentLink.noParent "bad" =
      Except.error ContainerError.invalidContainerKind :=
  ⟨by decide,
   invalid_kind_rejected demoStyles demoBases 7 ParentLink.noParent "bad"
     (by decide) (by decide) (by decide)⟩

/-
Arena model of the container hierarchy for the side effect contract of
construction. The spec design notes model containers as arena indexed
records, so the mutable hierarchy is a list of container records
addressed by position, each holding the fields the initializer of
src/ui/containers/base.py assigns: kind, parent index, title, the owned
child index sequence, relative depth and style token.
-/
structure CRec : Type where
  kind : ContainerType
  parent : Option Nat
  title : String
  children : List Nat
  depth : Nat
  style : String
deriving DecidableEq

/-- Record equal to the given one with one child index appended. -/
def addChild (r : CRec) (i : Nat) : CRec :=
  CRec.mk r.kind r.parent r.title (r.children ++ [i]) r.depth r.style

/-- Element of a list at a position. -/
def getAt {α : Type} : List α → Nat → Option α
  | [], _ => none
  | a :: _, 0 => some a
  | _ :: rest, n + 1 => getAt rest n

/-- List with the element at a position replaced through a function,
unchanged when the position is out of range. -/
def modifyAt {α : Type} (f : α → α) : Nat → List α → List α
  | _, [] => []
  | 0, a :: rest => f a :: rest
  | n + 1, a :: rest => a :: modifyAt f n rest

theorem getAt_append_left {α : Type} :
    ∀ (l l2 : List α) (i : Nat), i < l.length →
      getAt (l ++ l2) i = getAt l i := by
  intro l
  induction l with
  | nil => intro l2 i h; exact absurd h (by simp)
  | cons a rest ih =>
    intro l2 i h
    cases i with
    | zero => rfl
    | succ n =>
      simp only [List.length_cons, Nat.succ_lt_succ_iff] at h
      simpa [getAt] using ih l2 n h

theorem getAt_concat_length {α : Type} :
    ∀ (l : List α) (a : α), getAt (l ++ [a]) l.length = some a := by
  intro l
  induction l with
  | nil => intro a; rfl
  | cons b rest ih => intro a; simpa [getAt] using ih a

theorem getAt_concat_ne {α : Type} :
    ∀ (l : List α) (a : α) (i : Nat), i ≠ l.length →
      getAt (l ++ [a]) i = getAt l i := by
  intro l
  induction l with
  | nil =>
    intro a i h
    cases i with
    | zero => exact absurd rfl h
    | succ n => rfl
  | cons b rest ih =>
    intro a i h
    cases i with
    | zero => rfl
    | succ n =>
      simp only [List.length_cons] at h
      simpa [getAt] using ih a n (by omega)

theorem getAt_modifyAt_self {α : Type} (f : α → α) :
    ∀ (l : List α) (i : Nat), getAt (modifyAt f i l) i = (getAt l i).map f := by
  intro l
  induction l with
  | nil => intro i; cases i <;> rfl
  | cons a rest ih =>
    intro i
    cases i with
    | zero => rfl
    | succ n => simpa [modifyAt, getAt] using ih n

theorem getAt_modifyAt_ne {α : Type} (f : α → α) :
    ∀ (l : List α) (i j : Nat), i ≠ j →
      getAt (modifyAt f i l) j = getAt l j := by
  intro l
  induction l with
  | nil => intro i j _; cases i <;> rfl
  | cons a rest ih =>
    intro i j h
    cases i with
    | zero =>
      cases j with
      | zero => exact absurd rfl h
      | succ m => rfl
    | succ n =>
      cases j with
      | zero => rfl
      | succ m => simpa [modifyAt, getAt] using ih n m (by omega)

theorem length_modifyAt {α : Type} (f : α → α) :
    ∀ (l : List α) (i : Nat), (modifyAt f i l).length = l.length := by
  intro l
  induction l with
  | nil => intro i; cases i <;> rfl
  | cons a rest ih =>
    intro i
    cases i with
    | zero => rfl
    | succ n => simpa [modifyAt] using ih n

/-- Modelled from the spec: the relative depth walk over the arena,
counting same kind ancestors along parent indices. The walk is given
fuel one larger than the arena size, enough to traverse any chain in a
hierarchy whose parent indices point at earlier records. -/
def relDepthArena (st : List CRec) (kind : ContainerType) :
    Nat → Option Nat → Nat
  | _, none => 0
  | 0, some _ => 0
  | fuel + 1, some i =>
    match getAt st i with
    | none => 0
    | some r =>
      (if r.kind = kind then 1 else 0) + relDepthArena st kind fuel r.parent

/-- Modelled from the spec: construction of a container inside the arena
hierarchy. The constructor validates the raw kind value, computes depth
and style as the chain model does, appends the record of the new
container at the end of the arena and appends the index of the new
container to the child sequence of its parent record, which the
specification states is the only mutation outside the new record. -/
def mkContainerArena (styles : ContainerType → List (Nat × String))
    (bases : ContainerType → String) (st : List CRec) (code : Nat)
    (pl : Option Nat) (title : String) :
    Except ContainerError (List CRec × Nat) :=
  match recognizeKind code with
  | none => Except.error ContainerError.invalidContainerKind
  | some k =>
    let idx := st.length
    let d := relDepthArena st k (st.length + 1) pl
    let r := CRec.mk k pl title [] d (resolveStyleToken (styles k) (bases k) d)
    let st1 := st ++ [r]
    match pl with
    | none => Except.ok (st1, idx)
    | some p => Except.ok (modifyAt (fun q => addChild q idx) p st1, idx)

/-- Claim C9: constructing a container under a parent extends the arena
by exactly the new record, appends the index of the new container at the
end of the child sequence of the parent record while leaving every other
field of the parent unchanged, and leaves every other record of the
arena untouched. -/
theorem construction_effects (styles : ContainerType → List (Nat × String))
    (bases : ContainerType → String) (st : List CRec) (code : Nat) (p : Nat)
    (title : String) (st2 : List CRec) (idx : Nat) (hp : p < st.length)
    (h : mkContainerArena styles bases st code (some p) title =
      Except.ok (st2, idx)) :
    idx = st.length ∧
    st2.length = st.length + 1 ∧
    (∀ r0, getAt st p = some r0 → ∃ r1, getAt st2 p = some r1 ∧
      r1.children = r0.children ++ [idx] ∧
      r1.children.getLast? = some idx ∧
      r1.kind = r0.kind ∧ r1.parent = r0.parent ∧ r1.title = r0.title ∧
      r1.depth = r0.depth ∧ r1.style = r0.style) ∧
    (∀ i, i ≠ p → i ≠ idx → getAt st2 i = getAt st i) := by
  revert h
  unfold mkContainerArena
  cases hrk : recognizeKind code with
  | none => intro h; exact absurd h (by simp)
  | some k =>
    intro h
    simp only [Except.ok.injEq, Prod.mk.injEq] at h
    obtain ⟨hst2, hidx⟩ := h
    subst hst2
    subst hidx
    refine ⟨rfl, ?_, ?_, ?_⟩
    · rw [length_modifyAt]
      simp
    · intro r0 h0
      refine ⟨addChild r0 st.length, ?_, ?_, ?_, rfl, rfl, rfl, rfl, rfl⟩
      · rw [getAt_modifyAt_self, getAt_append_left _ _ _ hp, h0]
        rfl
      · rfl
      · simp [addChild]
    · intro i hip hilen
      rw [getAt_modifyAt_ne _ _ _ _ (fun hh => hip hh.symm),
        getAt_concat_ne _ _ _ hilen]

/-- Concrete one record arena holding a root section container. -/
def demoArena : List CRec :=
  [CRec.mk ContainerType.SECTION none "root" [] 0 "base"]

/-- Arena expected after constructing a task under the root section. -/
def demoArena2 : List CRec :=
  [CRec.mk ContainerType.SECTION none "root" [1] 0 "base",
   CRec.mk ContainerType.TASK (some 0) "child" [] 0 "base"]

theorem construction_effects_witness :
    0 < demoArena.length ∧
    (1 = demoArena.length ∧
    demoArena2.length = demoArena.length + 1 ∧
    (∀ r0, getAt demoArena 0 = some r0 → ∃ r1, getAt demoArena2 0 = some r1 ∧
      r1.children = r0.children ++ [1] ∧
      r1.children.getLast? = some 1 ∧
      r1.kind = r0.kind ∧ r1.parent = r0.parent ∧ r1.title = r0.title ∧
      r1.depth = r0.depth ∧ r1.style = r0.style) ∧
    (∀ i, i ≠ 0 → i ≠ 1 → getAt demoArena2 i = getAt demoArena i)) :=
  ⟨by decide,
   construction_effects demoStyles demoBases demoArena 3 0 "child" demoArena2 1
     (by decide) rfl⟩

/-
Errors of theme color resolution. A keyError names the missing mapping
key of the propagated lookup failure; typeError stands for the failures
the hosting language raises when a configuration node that the code
subscripts or reads attributes of has an unexpected shape.
-/
inductive ThemeErr : Type where
  | keyError : String → ThemeErr
  | typeError : ThemeErr
deriving DecidableEq

/-- Required key read from a theme mapping: a missing key propagates a
lookup failure naming the key, as a Python dictionary subscript does. -/
def req (tc : ConfigDict) (k : String) : Except ThemeErr ConfigVal :=
  match dLookup k tc with
  | some v => Except.ok v
  | none => Except.error (ThemeErr.keyError k)

/-- Color set built from a theme mapping, reading the six color keys in
the order the dictionary literal of the source evaluates them. -/
def colorsOf (tc : ConfigDict) : Except ThemeErr ConfigDict :=
  match req tc "background" with
  | Except.error e => Except.error e
  | Except.ok bg =>
    match req tc "foreground" with
    | Except.error e => Except.error e
    | Except.ok fg =>
      match req tc "panel_bg" with
      | Except.error e => Except.error e
      | Except.ok pbg =>
        match req tc "accent" with
        | Except.error e => Except.error e
        | Except.ok acc =>
          match req tc "highlight" with
          | Except.error e => Except.error e
          | Except.ok hl =>
            match req tc "border" with
            | Except.error e => Except.error e
            | Except.ok bor =>
              Except.ok (ConfigDict.cons "bg" bg (ConfigDict.cons "fg" fg
                (ConfigDict.cons "panel_bg" pbg (ConfigDict.cons "accent" acc
                  (ConfigDict.cons "highlight" hl
                    (ConfigDict.cons "border" bor ConfigDict.nil))))))

/-- Embedding of get colors from theme of src/ui/theme.py. The theme
name is read from the ui mapping with the light theme as default, the
mapping of that name is looked up under the themes mapping with a
missing name propagating a lookup failure, and the color set is built
from the six color keys of the selected theme mapping. -/
def get_colors_from_theme (config : ConfigDict) : Except ThemeErr ConfigDict :=
  match dLookup "ui" config with
  | none => Except.error (ThemeErr.keyError "ui")
  | some (ConfigVal.dict ui) =>
    let themeName : ConfigVal :=
      match dLookup "theme" ui with
      | some v => v
      | none => ConfigVal.str "light"
    match themeName with
    | ConfigVal.str name =>
      match dLookup "themes" config with
      | none => Except.error (ThemeErr.keyError "themes")
      | some (ConfigVal.dict themes) =>
        match dLookup name themes with
        | none => Except.error (ThemeErr.keyError name)
        | some (ConfigVal.dict tc) => colorsOf tc
        | some _ => Except.error ThemeErr.typeError
      | some _ => Except.error ThemeErr.typeError
    | _ => Except.error ThemeErr.typeError
  | some _ => Except.error ThemeErr.typeError

/-- Claim C10: when the ui mapping has no theme key resolution selects
the light theme, so it fails with a lookup error naming light when the
themes mapping has no light entry and otherwise builds the color set of
the light theme mapping; a named theme missing from the themes mapping
likewise fails with a lookup error naming it rather than falling back;
and the color set depends on exactly the six color keys of the selected
theme mapping. -/
theorem theme_resolution_spec (config ui themes : ConfigDict)
    (hui : dLookup "ui" config = some (ConfigVal.dict ui))
    (hth : dLookup "themes" config = some (ConfigVal.dict themes)) :
    (dLookup "theme" ui = none → dLookup "light" themes = none →
      get_colors_from_theme config = Except.error (ThemeErr.keyError "light")) ∧
    (∀ tc, dLookup "theme" ui = none →
      dLookup "light" themes = some (ConfigVal.dict tc) →
      get_colors_from_theme config = colorsOf tc) ∧
    (∀ name, dLookup "theme" ui = some (ConfigVal.str name) →
      dLookup name themes = none →
      get_colors_from_theme config = Except.error (ThemeErr.keyError name)) ∧
    (∀ tc tc2,
      dLookup "background" tc = dLookup "background" tc2 →
      dLookup "foreground" tc = dLookup "foreground" tc2 →
      dLookup "panel_bg" tc = dLookup "panel_bg" tc2 →
      dLookup "accent" tc = dLookup "accent" tc2 →
      dLookup "highlight" tc = dLookup "highlight" tc2 →
      dLookup "border" tc = dLookup "border" tc2 →
      colorsOf tc = colorsOf tc2) := by
  refine ⟨?_, ?_, ?_, ?_⟩
  · intro h1 h2
    simp [get_colors_from_theme, hui, hth, h1, h2]
  · intro tc h1 h2
    simp [get_colors_from_theme, hui, hth, h1, h2]
  · intro name h1 h2
    simp [get_colors_from_theme, hui, hth, h1, h2]
  · intro tc tc2 h1 h2 h3 h4 h5 h6
    simp only [colorsOf, req, h1, h2, h3, h4, h5, h6]

/-- Concrete light theme mapping with the six color keys. -/
def demoLight : ConfigDict :=
  ConfigDict.cons "background" (ConfigVal.str "#ffffff")
    (ConfigDict.cons "foreground" (ConfigVal.str "#000000")
      (ConfigDict.cons "panel_bg" (ConfigVal.str "#eeeeee")
        (ConfigDict.cons "accent" (ConfigVal.str "#3366cc")
          (ConfigDict.cons "highlight" (ConfigVal.str "#ff9900")
            (ConfigDict.cons "border" (ConfigVal.str "#cccccc")
              ConfigDict.nil)))))

/-- Concrete ui mapping without a theme key. -/
def demoUi : ConfigDict :=
  ConfigDict.cons "font" (ConfigVal.dict ConfigDict.nil) ConfigDict.nil

/-- Concrete themes mapping holding only the light theme. -/
def demoThemes : ConfigDict :=
  ConfigDict.cons "light" (ConfigVal.dict demoLight) ConfigDict.nil

/-- Concrete merged configuration for the theme example. -/
def demoThemeCfg : ConfigDict :=
  ConfigDict.cons "ui" (ConfigVal.dict demoUi)
    (ConfigDict.cons "themes" (ConfigVal.dict demoThemes) ConfigDict.nil)

theorem theme_resolution_spec_witness :
    (dLookup "ui" demoThemeCfg = some (ConfigVal.dict demoUi) ∧
     dLookup "themes" demoThemeCfg = some (ConfigVal.dict demoThemes)) ∧
    ((dLookup "theme" demoUi = none → dLookup "light" demoThemes = none →
      get_colors_from_theme demoThemeCfg =
        Except.error (ThemeErr.keyError "light")) ∧
    (∀ tc, dLookup "theme" demoUi = none →
      dLookup "light" demoThemes = some (ConfigVal.dict tc) →
      get_colors_from_theme demoThemeCfg = colorsOf tc) ∧
    (∀ name, dLookup "theme" demoUi = some (ConfigVal.str name) →
      dLookup name demoThemes = none →
      get_colors_from_theme demoThemeCfg =
        Except.error (ThemeErr.keyError name)) ∧
    (∀ tc tc2,
      dLookup "background" tc = dLookup "background" tc2 →
      dLookup "foreground" tc = dLookup "foreground" tc2 →
      dLookup "panel_bg" tc = dLookup "panel_bg" tc2 →
      dLookup "accent" tc = dLookup "accent" tc2 →
      dLookup "highlight" tc = dLookup "highlight" tc2 →
      dLookup "border" tc = dLookup "border" tc2 →
      colorsOf tc = colorsOf tc2)) :=
  ⟨⟨rfl, rfl⟩, theme_resolution_spec demoThemeCfg demoUi demoThemes rfl rfl⟩

theorem malformed_override_propagates_witness :
    load_config (SourceState.parsed demoBase) SourceState.malformed =
      Except.error LoadError.malformedOverride :=
  malformed_override_propagates.1 demoBase

theorem missing_base_fails_witness :
    load_config SourceState.absent (SourceState.parsed demoOver) =
        Except.error LoadError.missingConfiguration ∧
      load_config SourceState.malformed (SourceState.parsed demoOver) =
        Except.error LoadError.missingConfiguration :=
  missing_base_fails (SourceState.parsed demoOver)

theorem empty_override_noop_witness :
    load_config (SourceState.parsed demoSelf) SourceState.absent =
        Except.ok demoSelf ∧
      deep_merge_dicts demoSelf ConfigDict.nil = demoSelf :=
  ⟨empty_override_noop.1 demoSelf, empty_override_noop.2 demoSelf⟩
